import Mathlib

/-!
Shallow embedding of the multi_mut crate (src/src/lib.rs): an extension
layer over keyed maps that hands out several simultaneous mutable
references to distinct values of one map, with a runtime check that no
two returned references alias the same storage location.

Modelling choices:
* A container is a `MapModel`: a lookup function from keys to optional
  storage locations (`keyLoc`), plus a store from locations to values
  (`store`).  A Rust `&mut V` returned to the caller is modelled by its
  storage location (a `Nat`); pointer equality in the source becomes
  equality of locations.
* Rust panics (fatal aborts) are modelled by `Except.error` carrying the
  panic message; soft negative outcomes stay `Option`/`none` inside the
  `Except.ok` payload, exactly as the source distinguishes `None` from
  `panic!`-style aborts.
* The scratch buffer `&mut [*mut V]` is a `List Nat` whose length is the
  fixed capacity; `used` counts the filled slots, and the filled part is
  `buffer.take used`, mirroring `&self.buffer[0..self.used]`.
Both backends (HashMap-based and BTreeMap-based) are embedded separately,
mirroring the duplicated source code.
-/

namespace MultiMut

/-- The container collaborator: lookup resolves a key to the storage
location of its value (or none), and the store reads a location. -/
structure MapModel (κ ν : Type) where
  keyLoc : κ → Option Nat
  store : Nat → ν

variable {κ ν : Type}

/-- Mutating the container through a returned reference: write value `v`
at storage location `l`. -/
def MapModel.writeLoc (m : MapModel κ ν) (l : Nat) (v : ν) : MapModel κ ν :=
  { m with store := fun l2 => if l2 = l then v else m.store l2 }

/- ---------------------------------------------------------------
   HashMap backend (src/src/lib.rs lines 34-208)
   --------------------------------------------------------------- -/

/-- `HashMapMutWrapper` (lib.rs lines 139-145): the bounded multi-accessor
holding the map, the caller-supplied scratch buffer and the used count. -/
structure HashMapMutWrapper (κ ν : Type) where
  used : Nat
  map : MapModel κ ν
  buffer : List Nat

/-- `HashMapMultiMutIter` (lib.rs lines 187-192): the sequential accessor,
a wrapper plus the remaining key list. -/
structure HashMapMultiMutIter (κ ν : Type) where
  mut_wrapper : HashMapMutWrapper κ ν
  keys : List κ

/-- `HashMap::get_pair_mut` (lib.rs lines 38-61): soft pair lookup. -/
def HashMapMultiMut.get_pair_mut (m : MapModel κ ν) (k_1 k_2 : κ) :
    Option (Nat × Nat) :=
  match m.keyLoc k_1, m.keyLoc k_2 with
  | some ptr_1, some ptr_2 =>
      if ptr_1 = ptr_2 then none else some (ptr_1, ptr_2)
  | _, _ => none

/-- `HashMap::pair_mut` (lib.rs lines 63-77): hard pair lookup; an absent
key aborts with the index panic, an aliased pair aborts with the overlap
panic. -/
def HashMapMultiMut.pair_mut (m : MapModel κ ν) (k_1 k_2 : κ) :
    Except String (Nat × Nat) :=
  match m.keyLoc k_1 with
  | none => .error "no entry found for key"
  | some ptr_1 =>
    match m.keyLoc k_2 with
    | none => .error "no entry found for key"
    | some ptr_2 =>
      if ptr_1 = ptr_2 then
        .error "The keys pointed to the same value! Only non-overlapping values can be handled."
      else
        .ok (ptr_1, ptr_2)

/-- `HashMap::get_triple_mut` (lib.rs lines 79-106): soft triple lookup. -/
def HashMapMultiMut.get_triple_mut (m : MapModel κ ν) (k_1 k_2 k_3 : κ) :
    Option (Nat × Nat × Nat) :=
  match m.keyLoc k_1, m.keyLoc k_2, m.keyLoc k_3 with
  | some ptr_1, some ptr_2, some ptr_3 =>
      if ptr_1 = ptr_2 ∨ ptr_2 = ptr_3 ∨ ptr_1 = ptr_3 then none
      else some (ptr_1, ptr_2, ptr_3)
  | _, _, _ => none

/-- `HashMap::triple_mut` (lib.rs lines 108-124): hard triple lookup. -/
def HashMapMultiMut.triple_mut (m : MapModel κ ν) (k_1 k_2 k_3 : κ) :
    Except String (Nat × Nat × Nat) :=
  match m.keyLoc k_1 with
  | none => .error "no entry found for key"
  | some ptr_1 =>
    match m.keyLoc k_2 with
    | none => .error "no entry found for key"
    | some ptr_2 =>
      match m.keyLoc k_3 with
      | none => .error "no entry found for key"
      | some ptr_3 =>
        if ptr_1 = ptr_2 ∨ ptr_2 = ptr_3 ∨ ptr_1 = ptr_3 then
          .error "The keys pointed to the same value! Only non-overlapping values can be handled."
        else
          .ok (ptr_1, ptr_2, ptr_3)

/-- `HashMap::multi_mut` (lib.rs lines 126-129). -/
def HashMapMultiMut.multi_mut (m : MapModel κ ν) (buffer : List Nat) :
    HashMapMutWrapper κ ν :=
  { used := 0, map := m, buffer := buffer }

/-- `HashMapMutWrapper::get_mut` (lib.rs lines 151-176): the soft per-key
claim.  A full buffer aborts (before the lookup); an absent key yields
`none`; a location already recorded in the filled part of the buffer
aborts; otherwise the location is appended and returned. -/
def HashMapMutWrapper.get_mut (w : HashMapMutWrapper κ ν) (k : κ) :
    Except String (Option Nat × HashMapMutWrapper κ ν) :=
  if w.used = w.buffer.length then
    .error "Buffer space is depleted!"
  else
    match w.map.keyLoc k with
    | none => .ok (none, w)
    | some ptr =>
      if ptr ∈ w.buffer.take w.used then
        .error "No aliased references allowed! This key has been already used."
      else
        .ok (some ptr,
             { w with buffer := w.buffer.set w.used ptr, used := w.used + 1 })

/-- `HashMapMutWrapper::mut_ref` (lib.rs lines 178-185): the hard per-key
claim; escalates the empty result to an abort. -/
def HashMapMutWrapper.mut_ref (w : HashMapMutWrapper κ ν) (k : κ) :
    Except String (Nat × HashMapMutWrapper κ ν) :=
  match w.get_mut k with
  | .ok (some v, w2) => .ok (v, w2)
  | .ok (none, _) => .error "No such key!"
  | .error e => .error e

/-- `HashMap::iter_multi_mut` (lib.rs lines 131-135). -/
def HashMapMultiMut.iter_multi_mut (m : MapModel κ ν) (keys : List κ)
    (buffer : List Nat) : HashMapMultiMutIter κ ν :=
  { mut_wrapper := HashMapMultiMut.multi_mut m buffer, keys := keys }

/-- `HashMapMultiMutIter::next` (lib.rs lines 194-208): a full buffer or
an exhausted key list yields `none`; otherwise the head key is pulled
through the hard claim `mut_ref`. -/
def HashMapMultiMutIter.next (it : HashMapMultiMutIter κ ν) :
    Except String (Option Nat × HashMapMultiMutIter κ ν) :=
  if it.mut_wrapper.used = it.mut_wrapper.buffer.length then
    .ok (none, it)
  else
    match it.keys with
    | [] => .ok (none, it)
    | q :: rest =>
      match it.mut_wrapper.mut_ref q with
      | .error e => .error e
      | .ok (v, w2) => .ok (some v, { mut_wrapper := w2, keys := rest })

/- ---------------------------------------------------------------
   BTreeMap backend (src/src/lib.rs lines 238-412), duplicated in the
   source, duplicated here.
   --------------------------------------------------------------- -/

/-- `BTreeMapMutWrapper` (lib.rs lines 343-349). -/
structure BTreeMapMutWrapper (κ ν : Type) where
  used : Nat
  map : MapModel κ ν
  buffer : List Nat

/-- `BTreeMapMultiMutIter` (lib.rs lines 391-396). -/
structure BTreeMapMultiMutIter (κ ν : Type) where
  mut_wrapper : BTreeMapMutWrapper κ ν
  keys : List κ

/-- `BTreeMap::get_pair_mut` (lib.rs lines 242-265). -/
def BTreeMapMultiMut.get_pair_mut (m : MapModel κ ν) (k_1 k_2 : κ) :
    Option (Nat × Nat) :=
  match m.keyLoc k_1, m.keyLoc k_2 with
  | some ptr_1, some ptr_2 =>
      if ptr_1 = ptr_2 then none else some (ptr_1, ptr_2)
  | _, _ => none

/-- `BTreeMap::pair_mut` (lib.rs lines 267-281). -/
def BTreeMapMultiMut.pair_mut (m : MapModel κ ν) (k_1 k_2 : κ) :
    Except String (Nat × Nat) :=
  match m.keyLoc k_1 with
  | none => .error "no entry found for key"
  | some ptr_1 =>
    match m.keyLoc k_2 with
    | none => .error "no entry found for key"
    | some ptr_2 =>
      if ptr_1 = ptr_2 then
        .error "The keys pointed to the same value! Only non-overlapping values can be handled."
      else
        .ok (ptr_1, ptr_2)

/-- `BTreeMap::get_triple_mut` (lib.rs lines 283-310). -/
def BTreeMapMultiMut.get_triple_mut (m : MapModel κ ν) (k_1 k_2 k_3 : κ) :
    Option (Nat × Nat × Nat) :=
  match m.keyLoc k_1, m.keyLoc k_2, m.keyLoc k_3 with
  | some ptr_1, some ptr_2, some ptr_3 =>
      if ptr_1 = ptr_2 ∨ ptr_2 = ptr_3 ∨ ptr_1 = ptr_3 then none
      else some (ptr_1, ptr_2, ptr_3)
  | _, _, _ => none

/-- `BTreeMap::triple_mut` (lib.rs lines 312-328). -/
def BTreeMapMultiMut.triple_mut (m : MapModel κ ν) (k_1 k_2 k_3 : κ) :
    Except String (Nat × Nat × Nat) :=
  match m.keyLoc k_1 with
  | none => .error "no entry found for key"
  | some ptr_1 =>
    match m.keyLoc k_2 with
    | none => .error "no entry found for key"
    | some ptr_2 =>
      match m.keyLoc k_3 with
      | none => .error "no entry found for key"
      | some ptr_3 =>
        if ptr_1 = ptr_2 ∨ ptr_2 = ptr_3 ∨ ptr_1 = ptr_3 then
          .error "The keys pointed to the same value! Only non-overlapping values can be handled."
        else
          .ok (ptr_1, ptr_2, ptr_3)

/-- `BTreeMap::multi_mut` (lib.rs lines 330-333). -/
def BTreeMapMultiMut.multi_mut (m : MapModel κ ν) (buffer : List Nat) :
    BTreeMapMutWrapper κ ν :=
  { used := 0, map := m, buffer := buffer }

/-- `BTreeMapMutWrapper::get_mut` (lib.rs lines 355-380). -/
def BTreeMapMutWrapper.get_mut (w : BTreeMapMutWrapper κ ν) (k : κ) :
    Except String (Option Nat × BTreeMapMutWrapper κ ν) :=
  if w.used = w.buffer.length then
    .error "Buffer space is depleted!"
  else
    match w.map.keyLoc k with
    | none => .ok (none, w)
    | some ptr =>
      if ptr ∈ w.buffer.take w.used then
        .error "No aliased references allowed! This key has been already used."
      else
        .ok (some ptr,
             { w with buffer := w.buffer.set w.used ptr, used := w.used + 1 })

/-- `BTreeMapMutWrapper::mut_ref` (lib.rs lines 382-389). -/
def BTreeMapMutWrapper.mut_ref (w : BTreeMapMutWrapper κ ν) (k : κ) :
    Except String (Nat × BTreeMapMutWrapper κ ν) :=
  match w.get_mut k with
  | .ok (some v, w2) => .ok (v, w2)
  | .ok (none, _) => .error "No such key!"
  | .error e => .error e

/-- `BTreeMap::iter_multi_mut` (lib.rs lines 335-339). -/
def BTreeMapMultiMut.iter_multi_mut (m : MapModel κ ν) (keys : List κ)
    (buffer : List Nat) : BTreeMapMultiMutIter κ ν :=
  { mut_wrapper := BTreeMapMultiMut.multi_mut m buffer, keys := keys }

/-- `BTreeMapMultiMutIter::next` (lib.rs lines 398-412). -/
def BTreeMapMultiMutIter.next (it : BTreeMapMultiMutIter κ ν) :
    Except String (Option Nat × BTreeMapMultiMutIter κ ν) :=
  if it.mut_wrapper.used = it.mut_wrapper.buffer.length then
    .ok (none, it)
  else
    match it.keys with
    | [] => .ok (none, it)
    | q :: rest =>
      match it.mut_wrapper.mut_ref q with
      | .error e => .error e
      | .ok (v, w2) => .ok (some v, { mut_wrapper := w2, keys := rest })

/- ---------------------------------------------------------------
   Session vocabulary
   --------------------------------------------------------------- -/

/-- The filled part of the claim ledger: the storage locations recorded
so far (`&self.buffer[0..self.used]`). -/
def HashMapMutWrapper.claimed (w : HashMapMutWrapper κ ν) : List Nat :=
  w.buffer.take w.used

/-- The filled part of the BTree claim ledger. -/
def BTreeMapMutWrapper.claimed (w : BTreeMapMutWrapper κ ν) : List Nat :=
  w.buffer.take w.used

/-- One per-key operation of an access session on the bounded
multi-accessor: a soft claim (`get_mut`) or a hard claim (`mut_ref`). -/
inductive ClaimOp (κ : Type) where
  | soft (k : κ)
  | hard (k : κ)

/-- Run a session: perform the listed claims in order, collecting every
reference (storage location) actually returned to the caller.  An abort
anywhere aborts the session. -/
def runSession (w : HashMapMutWrapper κ ν) :
    List (ClaimOp κ) → Except String (List Nat × HashMapMutWrapper κ ν)
  | [] => .ok ([], w)
  | ClaimOp.soft k :: ops =>
    match w.get_mut k with
    | .error e => .error e
    | .ok (none, w1) => runSession w1 ops
    | .ok (some l, w1) =>
      match runSession w1 ops with
      | .error e => .error e
      | .ok (rs, w2) => .ok (l :: rs, w2)
  | ClaimOp.hard k :: ops =>
    match w.mut_ref k with
    | .error e => .error e
    | .ok (l, w1) =>
      match runSession w1 ops with
      | .error e => .error e
      | .ok (rs, w2) => .ok (l :: rs, w2)

/-- `true` exactly when the outcome is a fatal abort (a Rust panic). -/
def aborts : Except String α → Bool
  | .error _ => true
  | .ok _ => false

/-- The concrete container of the specification scenario:
keys x, y, z stored at locations 0, 1, 2 with values 1, 2, 3. -/
def exMap : MapModel String Nat :=
  { keyLoc := fun k =>
      if k = "x" then some 0
      else if k = "y" then some 1
      else if k = "z" then some 2
      else none,
    store := fun l =>
      if l = 0 then 1 else if l = 1 then 2 else if l = 2 then 3 else 0 }

/- ---------------------------------------------------------------
   Helper lemmas
   --------------------------------------------------------------- -/

lemma take_set_succ {α : Type} :
    ∀ (l : List α) (n : Nat) (a : α), n < l.length →
      (l.set n a).take (n + 1) = l.take n ++ [a] := by
  intro l
  induction l with
  | nil => intro n a h; simp at h
  | cons x xs ih =>
    intro n a h
    cases n with
    | zero => simp
    | succ n =>
      simp only [List.set_cons_succ, List.take_succ_cons, List.cons_append,
        List.cons.injEq, true_and]
      exact ih n a (by simpa using Nat.lt_of_succ_lt_succ h)

lemma get_mut_full {w : HashMapMutWrapper κ ν} (k : κ)
    (h : w.used = w.buffer.length) :
    w.get_mut k = .error "Buffer space is depleted!" := by
  simp [HashMapMutWrapper.get_mut, h]

lemma get_mut_absent {w : HashMapMutWrapper κ ν} {k : κ}
    (hne : w.used ≠ w.buffer.length) (hk : w.map.keyLoc k = none) :
    w.get_mut k = .ok (none, w) := by
  simp [HashMapMutWrapper.get_mut, hne, hk]

lemma get_mut_alias {w : HashMapMutWrapper κ ν} {k : κ} {l : Nat}
    (hne : w.used ≠ w.buffer.length) (hk : w.map.keyLoc k = some l)
    (hmem : l ∈ w.claimed) :
    w.get_mut k =
      .error "No aliased references allowed! This key has been already used." := by
  simp [HashMapMutWrapper.get_mut, hne, hk, HashMapMutWrapper.claimed] at hmem ⊢
  exact hmem

lemma get_mut_success {w : HashMapMutWrapper κ ν} {k : κ} {l : Nat}
    (hne : w.used ≠ w.buffer.length) (hk : w.map.keyLoc k = some l)
    (hmem : l ∉ w.claimed) :
    w.get_mut k =
      .ok (some l, ⟨w.used + 1, w.map, w.buffer.set w.used l⟩) := by
  simp [HashMapMutWrapper.claimed] at hmem
  simp [HashMapMutWrapper.get_mut, hne, hk, hmem]

lemma claimed_after_success {w : HashMapMutWrapper κ ν} {l : Nat}
    (hlt : w.used < w.buffer.length) :
    HashMapMutWrapper.claimed ⟨w.used + 1, w.map, w.buffer.set w.used l⟩ =
      w.claimed ++ [l] := by
  simp only [HashMapMutWrapper.claimed]
  exact take_set_succ w.buffer w.used l hlt

/-- One soft claim preserves the ledger invariants: the used count stays
within the buffer, the recorded locations stay pairwise distinct, and the
new ledger is the old one plus the returned location (if any). -/
lemma get_mut_spec {w : HashMapMutWrapper κ ν} {k : κ} {r : Option Nat}
    {w2 : HashMapMutWrapper κ ν}
    (hle : w.used ≤ w.buffer.length) (hnd : w.claimed.Nodup)
    (h : w.get_mut k = .ok (r, w2)) :
    w2.used ≤ w2.buffer.length ∧ w2.claimed.Nodup ∧
      w2.claimed = w.claimed ++ r.toList ∧ w2.map = w.map := by
  by_cases hf : w.used = w.buffer.length
  · rw [get_mut_full k hf] at h; exact absurd h (by simp)
  · cases hk : w.map.keyLoc k with
    | none =>
      rw [get_mut_absent hf hk] at h
      obtain ⟨rfl, rfl⟩ : r = none ∧ w2 = w := by
        simpa [Prod.ext_iff, eq_comm] using h
      simp [hle, hnd]
    | some l =>
      by_cases hmem : l ∈ w.claimed
      · rw [get_mut_alias hf hk hmem] at h; exact absurd h (by simp)
      · rw [get_mut_success hf hk hmem] at h
        obtain ⟨rfl, rfl⟩ :
            r = some l ∧ w2 = ⟨w.used + 1, w.map, w.buffer.set w.used l⟩ := by
          simpa [Prod.ext_iff, eq_comm] using h
        have hlt : w.used < w.buffer.length := Nat.lt_of_le_of_ne hle hf
        have hcl := claimed_after_success (w := w) (l := l) hlt
        refine ⟨?_, ?_, ?_, rfl⟩
        · simpa using Nat.succ_le_of_lt hlt
        · rw [hcl]; simp [List.nodup_append, hnd, hmem]
        · simpa using hcl

lemma mut_ref_ok {w : HashMapMutWrapper κ ν} {k : κ} {l : Nat}
    {w2 : HashMapMutWrapper κ ν}
    (h : w.get_mut k = .ok (some l, w2)) :
    w.mut_ref k = .ok (l, w2) := by
  simp [HashMapMutWrapper.mut_ref, h]

lemma mut_ref_inv {w : HashMapMutWrapper κ ν} {k : κ} {l : Nat}
    {w2 : HashMapMutWrapper κ ν}
    (h : w.mut_ref k = .ok (l, w2)) :
    w.get_mut k = .ok (some l, w2) := by
  unfold HashMapMutWrapper.mut_ref at h
  cases hg : w.get_mut k with
  | error e => rw [hg] at h; exact absurd h (by simp)
  | ok p =>
    obtain ⟨r, w1⟩ := p
    cases r with
    | none => rw [hg] at h; exact absurd h (by simp)
    | some v => rw [hg] at h; simp at h; simp [hg, h.1, h.2]

lemma mut_ref_absent {w : HashMapMutWrapper κ ν} {k : κ}
    (hne : w.used ≠ w.buffer.length) (hk : w.map.keyLoc k = none) :
    w.mut_ref k = .error "No such key!" := by
  simp [HashMapMutWrapper.mut_ref, get_mut_absent hne hk]

lemma mut_ref_full {w : HashMapMutWrapper κ ν} (k : κ)
    (h : w.used = w.buffer.length) :
    w.mut_ref k = .error "Buffer space is depleted!" := by
  simp [HashMapMutWrapper.mut_ref, get_mut_full k h]

lemma next_full {it : HashMapMultiMutIter κ ν}
    (h : it.mut_wrapper.used = it.mut_wrapper.buffer.length) :
    it.next = .ok (none, it) := by
  simp [HashMapMultiMutIter.next, h]

lemma next_step {it : HashMapMultiMutIter κ ν} {k : κ} {rest : List κ}
    {l : Nat} {w2 : HashMapMutWrapper κ ν}
    (hne : it.mut_wrapper.used ≠ it.mut_wrapper.buffer.length)
    (hkeys : it.keys = k :: rest)
    (h : it.mut_wrapper.mut_ref k = .ok (l, w2)) :
    it.next = .ok (some l, ⟨w2, rest⟩) := by
  simp [HashMapMultiMutIter.next, hne, hkeys, h]

lemma next_err {it : HashMapMultiMutIter κ ν} {k : κ} {rest : List κ}
    {e : String}
    (hne : it.mut_wrapper.used ≠ it.mut_wrapper.buffer.length)
    (hkeys : it.keys = k :: rest)
    (h : it.mut_wrapper.mut_ref k = .error e) :
    it.next = .error e := by
  simp [HashMapMultiMutIter.next, hne, hkeys, h]

/-- Session invariant: starting from a ledger whose filled part is within
capacity and duplicate-free, an aborting-free session keeps both
properties, and the final ledger is the initial one extended by exactly
the references returned to the caller, in order. -/
lemma runSession_spec :
    ∀ (ops : List (ClaimOp κ)) (w : HashMapMutWrapper κ ν)
      (rs : List Nat) (w2 : HashMapMutWrapper κ ν),
      w.used ≤ w.buffer.length → w.claimed.Nodup →
      runSession w ops = .ok (rs, w2) →
      w2.used ≤ w2.buffer.length ∧ w2.claimed.Nodup ∧
        w2.claimed = w.claimed ++ rs := by
  intro ops
  induction ops with
  | nil =>
    intro w rs w2 h1 h2 h
    obtain ⟨rfl, rfl⟩ : rs = [] ∧ w2 = w := by
      simpa [runSession, Prod.ext_iff, eq_comm] using h
    simp [h1, h2]
  | cons op ops ih =>
    intro w rs w2 h1 h2 h
    cases op with
    | soft k =>
      unfold runSession at h
      split at h
      · exact absurd h (by simp)
      · rename_i w1 hg
        obtain ⟨a1, a2, a3, _⟩ := get_mut_spec h1 h2 hg
        obtain ⟨b1, b2, b3⟩ := ih w1 rs w2 a1 a2 h
        refine ⟨b1, b2, ?_⟩
        rw [b3, a3]; simp [Option.toList]
      · rename_i l w1 hg
        obtain ⟨a1, a2, a3, _⟩ := get_mut_spec h1 h2 hg
        split at h
        · exact absurd h (by simp)
        · rename_i rs1 w3 hrun
          obtain ⟨rfl, rfl⟩ : rs = l :: rs1 ∧ w2 = w3 := by
            simpa [Prod.ext_iff, eq_comm] using h
          obtain ⟨b1, b2, b3⟩ := ih w1 rs1 w2 a1 a2 hrun
          refine ⟨b1, b2, ?_⟩
          rw [b3, a3]; simp [Option.toList]
    | hard k =>
      unfold runSession at h
      split at h
      · exact absurd h (by simp)
      · rename_i l w1 hg
        have hg2 := mut_ref_inv hg
        obtain ⟨a1, a2, a3, _⟩ := get_mut_spec h1 h2 hg2
        split at h
        · exact absurd h (by simp)
        · rename_i rs1 w3 hrun
          obtain ⟨rfl, rfl⟩ : rs = l :: rs1 ∧ w2 = w3 := by
            simpa [Prod.ext_iff, eq_comm] using h
          obtain ⟨b1, b2, b3⟩ := ih w1 rs1 w2 a1 a2 hrun
          refine ⟨b1, b2, ?_⟩
          rw [b3, a3]; simp [Option.toList]

/-- Claiming distinct, present, not-yet-claimed keys within capacity
always succeeds, returning exactly the resolved locations; the used count
grows by the number of keys and the buffer length never changes. -/
lemma runSession_soft_ok :
    ∀ (ks : List κ) (locs : List Nat) (w : HashMapMutWrapper κ ν),
      List.Forall₂ (fun k l => w.map.keyLoc k = some l) ks locs →
      (w.claimed ++ locs).Nodup →
      w.used + ks.length ≤ w.buffer.length →
      ∃ w2, runSession w (ks.map ClaimOp.soft) = .ok (locs, w2) ∧
        w2.used = w.used + ks.length ∧
        w2.buffer.length = w.buffer.length := by
  intro ks
  induction ks with
  | nil =>
    intro locs w hf hnd hcap
    cases hf
    exact ⟨w, by simp [runSession], by simp, rfl⟩
  | cons k ks ih =>
    intro locs w hf hnd hcap
    cases hf with
    | cons hk hf2 =>
      rename_i l locs2
      have hlt : w.used < w.buffer.length := by
        simp only [List.length_cons] at hcap; omega
      have hne : w.used ≠ w.buffer.length := Nat.ne_of_lt hlt
      have hmem : l ∉ w.claimed := by
        intro hc
        have := List.disjoint_of_nodup_append hnd hc
        simp at this
      have hsucc := get_mut_success hne hk hmem
      set w1 : HashMapMutWrapper κ ν :=
        ⟨w.used + 1, w.map, w.buffer.set w.used l⟩ with hw1
      have hcl : w1.claimed = w.claimed ++ [l] := claimed_after_success hlt
      have hf3 : List.Forall₂ (fun k2 l2 => w1.map.keyLoc k2 = some l2) ks locs2 := hf2
      have hnd3 : (w1.claimed ++ locs2).Nodup := by
        rw [hcl, List.append_assoc]
        simpa using hnd
      have hcap3 : w1.used + ks.length ≤ w1.buffer.length := by
        simp only [hw1, List.length_set]
        simp only [List.length_cons] at hcap; omega
      obtain ⟨w2, hrun, hused, hlen⟩ := ih locs2 w1 hf3 hnd3 hcap3
      refine ⟨w2, ?_, ?_, ?_⟩
      · simp only [List.map_cons, runSession, hsucc, hrun]
      · rw [hused]; simp [hw1]; omega
      · rw [hlen]; simp [hw1]

/- BTree-backend forms of the simple step lemmas. -/

lemma bget_mut_full {w : BTreeMapMutWrapper κ ν} (k : κ)
    (h : w.used = w.buffer.length) :
    w.get_mut k = .error "Buffer space is depleted!" := by
  simp [BTreeMapMutWrapper.get_mut, h]

lemma bget_mut_absent {w : BTreeMapMutWrapper κ ν} {k : κ}
    (hne : w.used ≠ w.buffer.length) (hk : w.map.keyLoc k = none) :
    w.get_mut k = .ok (none, w) := by
  simp [BTreeMapMutWrapper.get_mut, hne, hk]

lemma bmut_ref_full {w : BTreeMapMutWrapper κ ν} (k : κ)
    (h : w.used = w.buffer.length) :
    w.mut_ref k = .error "Buffer space is depleted!" := by
  simp [BTreeMapMutWrapper.mut_ref, bget_mut_full k h]

lemma bnext_full {it : BTreeMapMultiMutIter κ ν}
    (h : it.mut_wrapper.used = it.mut_wrapper.buffer.length) :
    it.next = .ok (none, it) := by
  simp [BTreeMapMultiMutIter.next, h]

/- Conversions between the two structurally identical backends, used to
state and prove backend equivalence. -/

def toHashW (w : BTreeMapMutWrapper κ ν) : HashMapMutWrapper κ ν :=
  ⟨w.used, w.map, w.buffer⟩

def toBTreeW (w : HashMapMutWrapper κ ν) : BTreeMapMutWrapper κ ν :=
  ⟨w.used, w.map, w.buffer⟩

def toHashIter (it : BTreeMapMultiMutIter κ ν) : HashMapMultiMutIter κ ν :=
  ⟨toHashW it.mut_wrapper, it.keys⟩

def toBTreeIter (it : HashMapMultiMutIter κ ν) : BTreeMapMultiMutIter κ ν :=
  ⟨toBTreeW it.mut_wrapper, it.keys⟩

lemma get_mut_backend (w : BTreeMapMutWrapper κ ν) (k : κ) :
    w.get_mut k =
      Except.map (fun p => (p.1, toBTreeW p.2)) ((toHashW w).get_mut k) := by
  obtain ⟨u, m, b⟩ := w
  simp only [BTreeMapMutWrapper.get_mut, HashMapMutWrapper.get_mut, toHashW,
    toBTreeW]
  by_cases h : u = b.length
  · simp [h, Except.map]
  · simp only [h, if_false]
    cases m.keyLoc k with
    | none => simp [Except.map]
    | some ptr =>
      by_cases hm : ptr ∈ b.take u
      · simp [hm, Except.map]
      · simp [hm, Except.map]

lemma mut_ref_backend (w : BTreeMapMutWrapper κ ν) (k : κ) :
    w.mut_ref k =
      Except.map (fun p => (p.1, toBTreeW p.2)) ((toHashW w).mut_ref k) := by
  simp only [BTreeMapMutWrapper.mut_ref, HashMapMutWrapper.mut_ref,
    get_mut_backend w k]
  cases (toHashW w).get_mut k with
  | error e => simp [Except.map]
  | ok p =>
    obtain ⟨r, w1⟩ := p
    cases r with
    | none => simp [Except.map]
    | some v => simp [Except.map]

lemma next_backend (it : HashMapMultiMutIter κ ν) :
    (toBTreeIter it).next =
      Except.map (fun p => (p.1, toBTreeIter p.2)) it.next := by
  obtain ⟨w, keys⟩ := it
  simp only [BTreeMapMultiMutIter.next, HashMapMultiMutIter.next, toBTreeIter,
    toBTreeW]
  by_cases h : w.used = w.buffer.length
  · simp [h, Except.map]
  · simp only [toBTreeW, h, if_false]
    cases keys with
    | nil => simp [Except.map]
    | cons q rest =>
      have hmr := mut_ref_backend (toBTreeW w) q
      have he : toHashW (toBTreeW w) = w := rfl
      rw [he] at hmr
      simp only [toBTreeW] at hmr
      cases hq : w.mut_ref q with
      | error e =>
        rw [hq] at hmr
        simp [hmr, hq, Except.map]
      | ok p =>
        rw [hq] at hmr
        simp [hmr, hq, Except.map]

lemma mut_ref_err {w : HashMapMutWrapper κ ν} {k : κ} {e : String}
    (h : w.get_mut k = .error e) : w.mut_ref k = .error e := by
  simp [HashMapMutWrapper.mut_ref, h]

/-- The explicit three-step run of the sequential accessor over three
distinct present keys with a capacity-3 buffer, ending in exhaustion. -/
lemma hash_iter3 {m : MapModel κ ν} {A B C : κ} {buffer : List Nat}
    {la lb lc : Nat}
    (hA : m.keyLoc A = some la) (hB : m.keyLoc B = some lb)
    (hC : m.keyLoc C = some lc)
    (hab : la ≠ lb) (hbc : lb ≠ lc) (hac : la ≠ lc)
    (hlen : buffer.length = 3) :
    (HashMapMultiMut.iter_multi_mut m [A, B, C] buffer).next =
        .ok (some la, ⟨⟨1, m, buffer.set 0 la⟩, [B, C]⟩) ∧
      HashMapMultiMutIter.next ⟨⟨1, m, buffer.set 0 la⟩, [B, C]⟩ =
        .ok (some lb, ⟨⟨2, m, (buffer.set 0 la).set 1 lb⟩, [C]⟩) ∧
      HashMapMultiMutIter.next ⟨⟨2, m, (buffer.set 0 la).set 1 lb⟩, [C]⟩ =
        .ok (some lc, ⟨⟨3, m, ((buffer.set 0 la).set 1 lb).set 2 lc⟩, []⟩) ∧
      HashMapMultiMutIter.next
          ⟨⟨3, m, ((buffer.set 0 la).set 1 lb).set 2 lc⟩, []⟩ =
        .ok (none, ⟨⟨3, m, ((buffer.set 0 la).set 1 lb).set 2 lc⟩, []⟩) := by
  have hc0 : HashMapMutWrapper.claimed (⟨0, m, buffer⟩ :
      HashMapMutWrapper κ ν) = [] := by
    simp [HashMapMutWrapper.claimed]
  have hc1 : HashMapMutWrapper.claimed (⟨1, m, buffer.set 0 la⟩ :
      HashMapMutWrapper κ ν) = [la] := by
    have := claimed_after_success (w := ⟨0, m, buffer⟩) (l := la)
      (by simp; omega)
    simpa [HashMapMutWrapper.claimed] using this
  have hc2 : HashMapMutWrapper.claimed (⟨2, m, (buffer.set 0 la).set 1 lb⟩ :
      HashMapMutWrapper κ ν) = [la, lb] := by
    have := claimed_after_success (w := ⟨1, m, buffer.set 0 la⟩) (l := lb)
      (by simp [hlen])
    rw [hc1] at this
    simpa using this
  have hw1 : HashMapMutWrapper.get_mut (⟨0, m, buffer⟩ :
      HashMapMutWrapper κ ν) A = .ok (some la, ⟨1, m, buffer.set 0 la⟩) :=
    get_mut_success (by simp; omega) hA (by rw [hc0]; simp)
  have hw2 : HashMapMutWrapper.get_mut (⟨1, m, buffer.set 0 la⟩ :
      HashMapMutWrapper κ ν) B =
      .ok (some lb, ⟨2, m, (buffer.set 0 la).set 1 lb⟩) :=
    get_mut_success (by simp [hlen]) hB
      (by rw [hc1]; simpa using Ne.symm hab)
  have hw3 : HashMapMutWrapper.get_mut
      (⟨2, m, (buffer.set 0 la).set 1 lb⟩ : HashMapMutWrapper κ ν) C =
      .ok (some lc, ⟨3, m, ((buffer.set 0 la).set 1 lb).set 2 lc⟩) :=
    get_mut_success (by simp [hlen]) hC
      (by rw [hc2]; simp [Ne.symm hac, Ne.symm hbc])
  refine ⟨?_, ?_, ?_, ?_⟩
  · exact next_step (by simpa using (by omega : (0:Nat) ≠ buffer.length)) rfl
      (mut_ref_ok hw1)
  · exact next_step (by simp [hlen]) rfl (mut_ref_ok hw2)
  · exact next_step (by simp [hlen]) rfl (mut_ref_ok hw3)
  · exact next_full (by simp [hlen])

/-- The explicit run of the sequential accessor over three keys with a
capacity-2 buffer: two yields, then exhaustion with the third key still
unconsumed. -/
lemma hash_iter2 {m : MapModel κ ν} {A B C : κ} {buffer : List Nat}
    {la lb : Nat}
    (hA : m.keyLoc A = some la) (hB : m.keyLoc B = some lb)
    (hab : la ≠ lb) (hlen : buffer.length = 2) :
    (HashMapMultiMut.iter_multi_mut m [A, B, C] buffer).next =
        .ok (some la, ⟨⟨1, m, buffer.set 0 la⟩, [B, C]⟩) ∧
      HashMapMultiMutIter.next ⟨⟨1, m, buffer.set 0 la⟩, [B, C]⟩ =
        .ok (some lb, ⟨⟨2, m, (buffer.set 0 la).set 1 lb⟩, [C]⟩) ∧
      HashMapMultiMutIter.next ⟨⟨2, m, (buffer.set 0 la).set 1 lb⟩, [C]⟩ =
        .ok (none, ⟨⟨2, m, (buffer.set 0 la).set 1 lb⟩, [C]⟩) := by
  have hc0 : HashMapMutWrapper.claimed (⟨0, m, buffer⟩ :
      HashMapMutWrapper κ ν) = [] := by
    simp [HashMapMutWrapper.claimed]
  have hc1 : HashMapMutWrapper.claimed (⟨1, m, buffer.set 0 la⟩ :
      HashMapMutWrapper κ ν) = [la] := by
    have := claimed_after_success (w := ⟨0, m, buffer⟩) (l := la)
      (by simp; omega)
    simpa [HashMapMutWrapper.claimed] using this
  have hw1 : HashMapMutWrapper.get_mut (⟨0, m, buffer⟩ :
      HashMapMutWrapper κ ν) A = .ok (some la, ⟨1, m, buffer.set 0 la⟩) :=
    get_mut_success (by simp; omega) hA (by rw [hc0]; simp)
  have hw2 : HashMapMutWrapper.get_mut (⟨1, m, buffer.set 0 la⟩ :
      HashMapMutWrapper κ ν) B =
      .ok (some lb, ⟨2, m, (buffer.set 0 la).set 1 lb⟩) :=
    get_mut_success (by simp [hlen]) hB
      (by rw [hc1]; simpa using Ne.symm hab)
  refine ⟨?_, ?_, ?_⟩
  · exact next_step (by simpa using (by omega : (0:Nat) ≠ buffer.length)) rfl
      (mut_ref_ok hw1)
  · exact next_step (by simp [hlen]) rfl (mut_ref_ok hw2)
  · exact next_full (by simp [hlen])

/-- The explicit run of the sequential accessor over a duplicated key
list [A, B, A]: two yields, then a fatal aliasing abort on the
duplicate. -/
lemma hash_iter_dup {m : MapModel κ ν} {A B : κ} {buffer : List Nat}
    {la lb : Nat}
    (hA : m.keyLoc A = some la) (hB : m.keyLoc B = some lb)
    (hab : la ≠ lb) (hlen : 2 < buffer.length) :
    (HashMapMultiMut.iter_multi_mut m [A, B, A] buffer).next =
        .ok (some la, ⟨⟨1, m, buffer.set 0 la⟩, [B, A]⟩) ∧
      HashMapMultiMutIter.next ⟨⟨1, m, buffer.set 0 la⟩, [B, A]⟩ =
        .ok (some lb, ⟨⟨2, m, (buffer.set 0 la).set 1 lb⟩, [A]⟩) ∧
      HashMapMultiMutIter.next ⟨⟨2, m, (buffer.set 0 la).set 1 lb⟩, [A]⟩ =
        .error "No aliased references allowed! This key has been already used." := by
  have hc0 : HashMapMutWrapper.claimed (⟨0, m, buffer⟩ :
      HashMapMutWrapper κ ν) = [] := by
    simp [HashMapMutWrapper.claimed]
  have hc1 : HashMapMutWrapper.claimed (⟨1, m, buffer.set 0 la⟩ :
      HashMapMutWrapper κ ν) = [la] := by
    have := claimed_after_success (w := ⟨0, m, buffer⟩) (l := la)
      (by simp; omega)
    simpa [HashMapMutWrapper.claimed] using this
  have hc2 : HashMapMutWrapper.claimed (⟨2, m, (buffer.set 0 la).set 1 lb⟩ :
      HashMapMutWrapper κ ν) = [la, lb] := by
    have := claimed_after_success (w := ⟨1, m, buffer.set 0 la⟩) (l := lb)
      (by simp; omega)
    rw [hc1] at this
    simpa using this
  have hw1 : HashMapMutWrapper.get_mut (⟨0, m, buffer⟩ :
      HashMapMutWrapper κ ν) A = .ok (some la, ⟨1, m, buffer.set 0 la⟩) :=
    get_mut_success (by simp; omega) hA (by rw [hc0]; simp)
  have hw2 : HashMapMutWrapper.get_mut (⟨1, m, buffer.set 0 la⟩ :
      HashMapMutWrapper κ ν) B =
      .ok (some lb, ⟨2, m, (buffer.set 0 la).set 1 lb⟩) :=
    get_mut_success (by simp; omega) hB
      (by rw [hc1]; simpa using Ne.symm hab)
  have hw3 : HashMapMutWrapper.get_mut
      (⟨2, m, (buffer.set 0 la).set 1 lb⟩ : HashMapMutWrapper κ ν) A =
      .error "No aliased references allowed! This key has been already used." :=
    get_mut_alias (by simp; omega) hA (by rw [hc2]; simp)
  refine ⟨?_, ?_, ?_⟩
  · exact next_step (by simpa using (by omega : (0:Nat) ≠ buffer.length)) rfl
      (mut_ref_ok hw1)
  · exact next_step (by simp; omega) rfl (mut_ref_ok hw2)
  · exact next_err (by simp; omega) rfl (mut_ref_err hw3)

/- ---------------------------------------------------------------
   Claims
   --------------------------------------------------------------- -/

/-- C1: Session-wide non-aliasing invariant: over any mix of soft and
hard per-key claims in one session started by `multi_mut`, the storage
locations recorded in the claim ledger are pairwise distinct at every
point (in particular at the end), and no two references returned to the
caller point to the same storage location; likewise the fixed-arity
accessors (soft and hard pair/triple) only ever return pairwise distinct
locations. -/
theorem session_nonaliasing :
    (∀ (m : MapModel κ ν) (buffer : List Nat) (ops : List (ClaimOp κ))
       (rs : List Nat) (w2 : HashMapMutWrapper κ ν),
       runSession (HashMapMultiMut.multi_mut m buffer) ops = .ok (rs, w2) →
       rs.Nodup ∧ w2.claimed.Nodup)
    ∧ (∀ (m : MapModel κ ν) (k1 k2 : κ) (l1 l2 : Nat),
        HashMapMultiMut.get_pair_mut m k1 k2 = some (l1, l2) → l1 ≠ l2)
    ∧ (∀ (m : MapModel κ ν) (k1 k2 : κ) (l1 l2 : Nat),
        HashMapMultiMut.pair_mut m k1 k2 = .ok (l1, l2) → l1 ≠ l2)
    ∧ (∀ (m : MapModel κ ν) (k1 k2 k3 : κ) (l1 l2 l3 : Nat),
        HashMapMultiMut.get_triple_mut m k1 k2 k3 = some (l1, l2, l3) →
        l1 ≠ l2 ∧ l2 ≠ l3 ∧ l1 ≠ l3)
    ∧ (∀ (m : MapModel κ ν) (k1 k2 k3 : κ) (l1 l2 l3 : Nat),
        HashMapMultiMut.triple_mut m k1 k2 k3 = .ok (l1, l2, l3) →
        l1 ≠ l2 ∧ l2 ≠ l3 ∧ l1 ≠ l3) := by
  refine ⟨?_, ?_, ?_, ?_, ?_⟩
  · intro m buffer ops rs w2 h
    have h0 : (HashMapMultiMut.multi_mut m buffer).used ≤
        (HashMapMultiMut.multi_mut m buffer).buffer.length := by
      simp [HashMapMultiMut.multi_mut]
    have h1 : (HashMapMultiMut.multi_mut m buffer).claimed.Nodup := by
      simp [HashMapMultiMut.multi_mut, HashMapMutWrapper.claimed]
    obtain ⟨_, b2, b3⟩ := runSession_spec ops _ rs w2 h0 h1 h
    have hcl : w2.claimed = rs := by
      rw [b3]; simp [HashMapMultiMut.multi_mut, HashMapMutWrapper.claimed]
    exact ⟨hcl ▸ b2, b2⟩
  · intro m k1 k2 l1 l2 h
    cases ha : m.keyLoc k1 with
    | none => simp [HashMapMultiMut.get_pair_mut, ha] at h
    | some p1 =>
      cases hb : m.keyLoc k2 with
      | none => simp [HashMapMultiMut.get_pair_mut, ha, hb] at h
      | some p2 =>
        by_cases hpq : p1 = p2
        · simp [HashMapMultiMut.get_pair_mut, ha, hb, hpq] at h
        · simp [HashMapMultiMut.get_pair_mut, ha, hb, hpq] at h
          obtain ⟨rfl, rfl⟩ := h
          exact hpq
  · intro m k1 k2 l1 l2 h
    cases ha : m.keyLoc k1 with
    | none => simp [HashMapMultiMut.pair_mut, ha] at h
    | some p1 =>
      cases hb : m.keyLoc k2 with
      | none => simp [HashMapMultiMut.pair_mut, ha, hb] at h
      | some p2 =>
        by_cases hpq : p1 = p2
        · simp [HashMapMultiMut.pair_mut, ha, hb, hpq] at h
        · simp [HashMapMultiMut.pair_mut, ha, hb, hpq] at h
          obtain ⟨rfl, rfl⟩ := h
          exact hpq
  · intro m k1 k2 k3 l1 l2 l3 h
    cases ha : m.keyLoc k1 with
    | none => simp [HashMapMultiMut.get_triple_mut, ha] at h
    | some p1 =>
      cases hb : m.keyLoc k2 with
      | none => simp [HashMapMultiMut.get_triple_mut, ha, hb] at h
      | some p2 =>
        cases hc : m.keyLoc k3 with
        | none => simp [HashMapMultiMut.get_triple_mut, ha, hb, hc] at h
        | some p3 =>
          by_cases hd : p1 = p2 ∨ p2 = p3 ∨ p1 = p3
          · simp [HashMapMultiMut.get_triple_mut, ha, hb, hc, hd] at h
          · simp [HashMapMultiMut.get_triple_mut, ha, hb, hc, hd] at h
            obtain ⟨rfl, rfl, rfl⟩ := h
            push_neg at hd
            exact hd
  · intro m k1 k2 k3 l1 l2 l3 h
    cases ha : m.keyLoc k1 with
    | none => simp [HashMapMultiMut.triple_mut, ha] at h
    | some p1 =>
      cases hb : m.keyLoc k2 with
      | none => simp [HashMapMultiMut.triple_mut, ha, hb] at h
      | some p2 =>
        cases hc : m.keyLoc k3 with
        | none => simp [HashMapMultiMut.triple_mut, ha, hb, hc] at h
        | some p3 =>
          by_cases hd : p1 = p2 ∨ p2 = p3 ∨ p1 = p3
          · simp [HashMapMultiMut.triple_mut, ha, hb, hc, hd] at h
          · simp [HashMapMultiMut.triple_mut, ha, hb, hc, hd] at h
            obtain ⟨rfl, rfl, rfl⟩ := h
            push_neg at hd
            exact hd

/-- Witness for C1: a concrete session (soft claim of x, hard claim of y)
returns references 0 and 1, pairwise distinct, and the final ledger is
duplicate-free. -/
theorem session_nonaliasing_witness :
    ([0, 1] : List Nat).Nodup ∧
      (HashMapMutWrapper.claimed ⟨2, exMap, [0, 1]⟩).Nodup :=
  session_nonaliasing.1 exMap [9, 9] [ClaimOp.soft "x", ClaimOp.hard "y"]
    [0, 1] ⟨2, exMap, [0, 1]⟩ rfl

/-- C2: Soft pair success and mutation independence: on two present keys
resolving to different storage locations, `get_pair_mut` returns both
locations, and writing through the first does not change the value read
at the second; concretely on the container x=1, y=2, z=3 the pair (x, y)
yields locations 0 and 1 holding 1 and 2, and writing 10 through the
first leaves y at 2 and x at 10. -/
theorem soft_pair_mutation_independence :
    (∀ (m : MapModel κ ν) (k1 k2 : κ) (l1 l2 : Nat),
       m.keyLoc k1 = some l1 → m.keyLoc k2 = some l2 → l1 ≠ l2 →
       HashMapMultiMut.get_pair_mut m k1 k2 = some (l1, l2) ∧
       ∀ v, (m.writeLoc l1 v).store l2 = m.store l2 ∧
            (m.writeLoc l1 v).store l1 = v)
    ∧ (HashMapMultiMut.get_pair_mut exMap "x" "y" = some (0, 1) ∧
       exMap.store 0 = 1 ∧ exMap.store 1 = 2 ∧
       (exMap.writeLoc 0 10).store 1 = 2 ∧
       (exMap.writeLoc 0 10).store 0 = 10) := by
  constructor
  · intro m k1 k2 l1 l2 h1 h2 hne
    refine ⟨by simp [HashMapMultiMut.get_pair_mut, h1, h2, hne], ?_⟩
    intro v
    constructor
    · simp [MapModel.writeLoc, Ne.symm hne]
    · simp [MapModel.writeLoc]
  · exact ⟨by decide, by decide, by decide, by decide, by decide⟩

/-- Witness for C2: the general part applied to the concrete container at
keys x and y (locations 0 and 1) with the write of 10 instantiated. -/
theorem soft_pair_mutation_independence_witness :
    HashMapMultiMut.get_pair_mut exMap "x" "y" = some (0, 1) ∧
      (exMap.writeLoc 0 10).store 1 = exMap.store 1 ∧
      (exMap.writeLoc 0 10).store 0 = 10 :=
  ⟨(soft_pair_mutation_independence.1 exMap "x" "y" 0 1 rfl rfl (by decide)).1,
   ((soft_pair_mutation_independence.1 exMap "x" "y" 0 1 rfl rfl (by decide)).2 10).1,
   ((soft_pair_mutation_independence.1 exMap "x" "y" 0 1 rfl rfl (by decide)).2 10).2⟩

/-- C3: Soft alias detection: the soft pair lookup of (k, k) always
returns `none`; the soft triple lookup returns `none` whenever any of the
three unordered pairs of resolved locations coincide, including the
fully-degenerate lookup (k, k, k). -/
theorem soft_alias_detection :
    (∀ (m : MapModel κ ν) (k : κ), HashMapMultiMut.get_pair_mut m k k = none)
    ∧ (∀ (m : MapModel κ ν) (k1 k2 k3 : κ) (l1 l2 l3 : Nat),
        m.keyLoc k1 = some l1 → m.keyLoc k2 = some l2 → m.keyLoc k3 = some l3 →
        (l1 = l2 ∨ l2 = l3 ∨ l1 = l3) →
        HashMapMultiMut.get_triple_mut m k1 k2 k3 = none)
    ∧ (∀ (m : MapModel κ ν) (k : κ),
        HashMapMultiMut.get_triple_mut m k k k = none) := by
  refine ⟨?_, ?_, ?_⟩
  · intro m k
    cases ha : m.keyLoc k with
    | none => simp [HashMapMultiMut.get_pair_mut, ha]
    | some p => simp [HashMapMultiMut.get_pair_mut, ha]
  · intro m k1 k2 k3 l1 l2 l3 h1 h2 h3 hd
    simp [HashMapMultiMut.get_triple_mut, h1, h2, h3, hd]
  · intro m k
    cases ha : m.keyLoc k with
    | none => simp [HashMapMultiMut.get_triple_mut, ha]
    | some p => simp [HashMapMultiMut.get_triple_mut, ha]

/-- Witness for C3: self-aliasing pair (x, x), an aliased triple
(x, x, y), and the degenerate triple (x, x, x) on the concrete container
all yield the empty outcome. -/
theorem soft_alias_detection_witness :
    HashMapMultiMut.get_pair_mut exMap "x" "x" = none ∧
      HashMapMultiMut.get_triple_mut exMap "x" "x" "y" = none ∧
      HashMapMultiMut.get_triple_mut exMap "x" "x" "x" = none :=
  ⟨soft_alias_detection.1 exMap "x",
   soft_alias_detection.2.1 exMap "x" "x" "y" 0 0 1 rfl rfl rfl (Or.inl rfl),
   soft_alias_detection.2.2 exMap "x"⟩

/-- C4: KeyNotFound propagation: an absent key makes the soft pair and
triple lookups return `none` in every argument position with no partial
result, makes the soft per-key claim return the empty result (when
capacity remains), and makes every hard entry point abort: `pair_mut`,
`triple_mut`, `mut_ref` (the claim-or-abort path) and the sequential
accessor pull reaching that key. -/
theorem keynotfound_propagation :
    (∀ (m : MapModel κ ν) (k k2 : κ), m.keyLoc k = none →
       HashMapMultiMut.get_pair_mut m k k2 = none ∧
       HashMapMultiMut.get_pair_mut m k2 k = none)
    ∧ (∀ (m : MapModel κ ν) (k k2 k3 : κ), m.keyLoc k = none →
        HashMapMultiMut.get_triple_mut m k k2 k3 = none ∧
        HashMapMultiMut.get_triple_mut m k2 k k3 = none ∧
        HashMapMultiMut.get_triple_mut m k2 k3 k = none)
    ∧ (∀ (w : HashMapMutWrapper κ ν) (k : κ), w.map.keyLoc k = none →
        w.used ≠ w.buffer.length → w.get_mut k = .ok (none, w))
    ∧ (∀ (m : MapModel κ ν) (k k2 : κ), m.keyLoc k = none →
        aborts (HashMapMultiMut.pair_mut m k k2) = true ∧
        aborts (HashMapMultiMut.pair_mut m k2 k) = true)
    ∧ (∀ (m : MapModel κ ν) (k k2 k3 : κ), m.keyLoc k = none →
        aborts (HashMapMultiMut.triple_mut m k k2 k3) = true ∧
        aborts (HashMapMultiMut.triple_mut m k2 k k3) = true ∧
        aborts (HashMapMultiMut.triple_mut m k2 k3 k) = true)
    ∧ (∀ (w : HashMapMutWrapper κ ν) (k : κ), w.map.keyLoc k = none →
        w.used ≠ w.buffer.length → w.mut_ref k = .error "No such key!")
    ∧ (∀ (it : HashMapMultiMutIter κ ν) (k : κ) (rest : List κ),
        it.keys = k :: rest → it.mut_wrapper.map.keyLoc k = none →
        it.mut_wrapper.used ≠ it.mut_wrapper.buffer.length →
        it.next = .error "No such key!") := by
  refine ⟨?_, ?_, ?_, ?_, ?_, ?_, ?_⟩
  · intro m k k2 hk
    constructor
    · cases hb : m.keyLoc k2 <;> simp [HashMapMultiMut.get_pair_mut, hk, hb]
    · cases hb : m.keyLoc k2 <;> simp [HashMapMultiMut.get_pair_mut, hk, hb]
  · intro m k k2 k3 hk
    refine ⟨?_, ?_, ?_⟩
    · cases hb : m.keyLoc k2 <;> cases hc : m.keyLoc k3 <;>
        simp [HashMapMultiMut.get_triple_mut, hk, hb, hc]
    · cases hb : m.keyLoc k2 <;> cases hc : m.keyLoc k3 <;>
        simp [HashMapMultiMut.get_triple_mut, hk, hb, hc]
    · cases hb : m.keyLoc k2 <;> cases hc : m.keyLoc k3 <;>
        simp [HashMapMultiMut.get_triple_mut, hk, hb, hc]
  · intro w k hk hne
    exact get_mut_absent hne hk
  · intro m k k2 hk
    constructor
    · simp [HashMapMultiMut.pair_mut, hk, aborts]
    · cases hb : m.keyLoc k2 <;> simp [HashMapMultiMut.pair_mut, hk, hb, aborts]
  · intro m k k2 k3 hk
    refine ⟨?_, ?_, ?_⟩
    · simp [HashMapMultiMut.triple_mut, hk, aborts]
    · cases hb : m.keyLoc k2 <;>
        simp [HashMapMultiMut.triple_mut, hk, hb, aborts]
    · cases hb : m.keyLoc k2 <;> cases hc : m.keyLoc k3 <;>
        simp [HashMapMultiMut.triple_mut, hk, hb, hc, aborts]
  · intro w k hk hne
    exact mut_ref_absent hne hk
  · intro it k rest hkeys hk hne
    exact next_err hne hkeys (mut_ref_absent hne hk)

/-- Witness for C4: the absent key w on the concrete container makes the
soft lookups empty, the wrapper claim empty without consuming, and the
hard entry points abort. -/
theorem keynotfound_propagation_witness :
    HashMapMultiMut.get_pair_mut exMap "w" "x" = none ∧
      HashMapMultiMut.get_triple_mut exMap "x" "w" "y" = none ∧
      HashMapMutWrapper.get_mut ⟨0, exMap, [9]⟩ "w" =
        .ok (none, ⟨0, exMap, [9]⟩) ∧
      aborts (HashMapMultiMut.pair_mut exMap "w" "x") = true ∧
      aborts (HashMapMultiMut.triple_mut exMap "x" "w" "y") = true ∧
      HashMapMutWrapper.mut_ref ⟨0, exMap, [9]⟩ "w" = .error "No such key!" ∧
      HashMapMultiMutIter.next (⟨⟨0, exMap, [9]⟩, ["w"]⟩ :
          HashMapMultiMutIter String Nat) = .error "No such key!" :=
  ⟨(keynotfound_propagation.1 exMap "w" "x" rfl).1,
   (keynotfound_propagation.2.1 exMap "w" "x" "y" rfl).2.1,
   keynotfound_propagation.2.2.1 ⟨0, exMap, [9]⟩ "w" rfl (by decide),
   (keynotfound_propagation.2.2.2.1 exMap "w" "x" rfl).1,
   (keynotfound_propagation.2.2.2.2.1 exMap "w" "x" "y" rfl).2.1,
   keynotfound_propagation.2.2.2.2.2.1 ⟨0, exMap, [9]⟩ "w" rfl (by decide),
   keynotfound_propagation.2.2.2.2.2.2 ⟨⟨0, exMap, [9]⟩, ["w"]⟩ "w" [] rfl rfl
     (by decide)⟩

/-- C5: Capacity abort timing: the capacity check precedes the key
lookup, so a full ledger makes any claim abort at once, key present or
absent (both backends); and claiming any number of distinct present keys
up to the capacity never aborts — the session succeeds — while the claim
attempted once the ledger is full (when exactly capacity-many keys were
claimed) aborts with the capacity panic, for every key. -/
theorem capacity_abort_timing :
    (∀ (w : HashMapMutWrapper κ ν) (k : κ), w.used = w.buffer.length →
       w.get_mut k = .error "Buffer space is depleted!")
    ∧ (∀ (w : BTreeMapMutWrapper κ ν) (k : κ), w.used = w.buffer.length →
        w.get_mut k = .error "Buffer space is depleted!")
    ∧ (∀ (m : MapModel κ ν) (buffer : List Nat) (ks : List κ)
         (locs : List Nat),
        List.Forall₂ (fun k l => m.keyLoc k = some l) ks locs →
        locs.Nodup → ks.length ≤ buffer.length →
        ∃ w2, runSession (HashMapMultiMut.multi_mut m buffer)
            (ks.map ClaimOp.soft) = .ok (locs, w2) ∧
          (ks.length = buffer.length → ∀ k2,
            w2.get_mut k2 = .error "Buffer space is depleted!")) := by
  refine ⟨?_, ?_, ?_⟩
  · intro w k h
    exact get_mut_full k h
  · intro w k h
    exact bget_mut_full k h
  · intro m buffer ks locs hf hnd hlen
    have hf2 : List.Forall₂
        (fun k l => (HashMapMultiMut.multi_mut m buffer).map.keyLoc k = some l)
        ks locs := hf
    have hnd2 : ((HashMapMultiMut.multi_mut m buffer).claimed ++ locs).Nodup := by
      simpa [HashMapMultiMut.multi_mut, HashMapMutWrapper.claimed] using hnd
    have hcap : (HashMapMultiMut.multi_mut m buffer).used + ks.length ≤
        (HashMapMultiMut.multi_mut m buffer).buffer.length := by
      simpa [HashMapMultiMut.multi_mut] using hlen
    obtain ⟨w2, hrun, hused, hblen⟩ := runSession_soft_ok ks locs _ hf2 hnd2 hcap
    refine ⟨w2, hrun, ?_⟩
    intro hfull k2
    apply get_mut_full
    rw [hused, hblen]
    simp [HashMapMultiMut.multi_mut, hfull]

/-- Witness for C5: with the concrete container, a full ledger aborts any
further claim even for the absent key w (both backends), and a
capacity-2 session claiming x then y succeeds and leaves the ledger
full. -/
theorem capacity_abort_timing_witness :
    HashMapMutWrapper.get_mut (⟨2, exMap, [0, 1]⟩ :
        HashMapMutWrapper String Nat) "w" =
      .error "Buffer space is depleted!" ∧
    BTreeMapMutWrapper.get_mut (⟨2, exMap, [0, 1]⟩ :
        BTreeMapMutWrapper String Nat) "w" =
      .error "Buffer space is depleted!" ∧
    (∃ w2, runSession (HashMapMultiMut.multi_mut exMap [9, 9])
        (["x", "y"].map ClaimOp.soft) = .ok ([0, 1], w2) ∧
      ((["x", "y"] : List String).length = [9, 9].length → ∀ k2,
        w2.get_mut k2 = .error "Buffer space is depleted!")) :=
  ⟨capacity_abort_timing.1 ⟨2, exMap, [0, 1]⟩ "w" rfl,
   capacity_abort_timing.2.1 ⟨2, exMap, [0, 1]⟩ "w" rfl,
   capacity_abort_timing.2.2 exMap [9, 9] ["x", "y"] [0, 1]
     (List.Forall₂.cons rfl (List.Forall₂.cons rfl List.Forall₂.nil))
     (by decide) (by decide)⟩

/-- C6: An aliasing claim aborts on the second claim: after a successful
claim of a location, any further claim resolving to the same location
(same key or a different key) aborts with the aliasing panic, while the
first claim succeeded; and the sequential accessor over [A, B, A] yields
A and B and aborts exactly on reaching the duplicate. -/
theorem alias_abort_on_second_claim :
    (∀ (w : HashMapMutWrapper κ ν) (k k2 : κ) (l : Nat),
       w.used < w.buffer.length → w.map.keyLoc k = some l → l ∉ w.claimed →
       ∃ w1, w.get_mut k = .ok (some l, w1) ∧
         (w1.map.keyLoc k2 = some l → w1.used ≠ w1.buffer.length →
           w1.get_mut k2 =
             .error "No aliased references allowed! This key has been already used."))
    ∧ (∀ (m : MapModel κ ν) (A B : κ) (buffer : List Nat) (la lb : Nat),
        m.keyLoc A = some la → m.keyLoc B = some lb → la ≠ lb →
        2 < buffer.length →
        ∃ it1 it2,
          (HashMapMultiMut.iter_multi_mut m [A, B, A] buffer).next =
              .ok (some la, it1) ∧
            it1.next = .ok (some lb, it2) ∧
            it2.next =
              .error "No aliased references allowed! This key has been already used.") := by
  constructor
  · intro w k k2 l hlt hk hmem
    have hne : w.used ≠ w.buffer.length := Nat.ne_of_lt hlt
    refine ⟨_, get_mut_success hne hk hmem, ?_⟩
    intro hk2 hne2
    apply get_mut_alias hne2 hk2
    rw [claimed_after_success hlt]
    simp
  · intro m A B buffer la lb hA hB hab hlen
    obtain ⟨h1, h2, h3⟩ := hash_iter_dup hA hB hab hlen
    exact ⟨_, _, h1, h2, h3⟩

/-- Witness for C6: on the concrete container, claiming x succeeds and a
second claim of x aborts with the aliasing panic; the sequential accessor
over [x, y, x] aborts exactly on the duplicate. -/
theorem alias_abort_on_second_claim_witness :
    (∃ w1, HashMapMutWrapper.get_mut (⟨0, exMap, [9, 9]⟩ :
        HashMapMutWrapper String Nat) "x" = .ok (some 0, w1) ∧
      (w1.map.keyLoc "x" = some 0 → w1.used ≠ w1.buffer.length →
        w1.get_mut "x" =
          .error "No aliased references allowed! This key has been already used.")) ∧
    (∃ it1 it2,
      (HashMapMultiMut.iter_multi_mut exMap ["x", "y", "x"] [9, 9, 9]).next =
          .ok (some 0, it1) ∧
        it1.next = .ok (some 1, it2) ∧
        it2.next =
          .error "No aliased references allowed! This key has been already used.") :=
  ⟨alias_abort_on_second_claim.1 ⟨0, exMap, [9, 9]⟩ "x" "x" 0 (by decide) rfl
     (by decide),
   alias_abort_on_second_claim.2 exMap "x" "y" [9, 9, 9] 0 1 rfl rfl
     (by decide) (by decide)⟩

/-- C7: Sequential accessor yield order and exhaustion: over three
distinct present keys [A, B, C] with capacity 3, the accessor yields the
three locations in order and then reports the empty (exhausted) outcome;
with capacity 2 it yields A and B and then reports the same empty outcome
while C remains unconsumed.  Both backends behave identically. -/
theorem iter_yield_order_exhaustion :
    (∀ (m : MapModel κ ν) (A B C : κ) (buffer : List Nat) (la lb lc : Nat),
       m.keyLoc A = some la → m.keyLoc B = some lb → m.keyLoc C = some lc →
       la ≠ lb → lb ≠ lc → la ≠ lc → buffer.length = 3 →
       ∃ it1 it2 it3,
         (HashMapMultiMut.iter_multi_mut m [A, B, C] buffer).next =
             .ok (some la, it1) ∧
           it1.next = .ok (some lb, it2) ∧
           it2.next = .ok (some lc, it3) ∧
           it3.next = .ok (none, it3) ∧ it3.keys = [])
    ∧ (∀ (m : MapModel κ ν) (A B C : κ) (buffer : List Nat) (la lb : Nat),
        m.keyLoc A = some la → m.keyLoc B = some lb →
        la ≠ lb → buffer.length = 2 →
        ∃ it1 it2,
          (HashMapMultiMut.iter_multi_mut m [A, B, C] buffer).next =
              .ok (some la, it1) ∧
            it1.next = .ok (some lb, it2) ∧
            it2.next = .ok (none, it2) ∧ it2.keys = [C])
    ∧ (∀ (m : MapModel κ ν) (A B C : κ) (buffer : List Nat) (la lb lc : Nat),
        m.keyLoc A = some la → m.keyLoc B = some lb → m.keyLoc C = some lc →
        la ≠ lb → lb ≠ lc → la ≠ lc → buffer.length = 3 →
        ∃ jt1 jt2 jt3,
          (BTreeMapMultiMut.iter_multi_mut m [A, B, C] buffer).next =
              .ok (some la, jt1) ∧
            jt1.next = .ok (some lb, jt2) ∧
            jt2.next = .ok (some lc, jt3) ∧
            jt3.next = .ok (none, jt3) ∧ jt3.keys = [])
    ∧ (∀ (m : MapModel κ ν) (A B C : κ) (buffer : List Nat) (la lb : Nat),
        m.keyLoc A = some la → m.keyLoc B = some lb →
        la ≠ lb → buffer.length = 2 →
        ∃ jt1 jt2,
          (BTreeMapMultiMut.iter_multi_mut m [A, B, C] buffer).next =
              .ok (some la, jt1) ∧
            jt1.next = .ok (some lb, jt2) ∧
            jt2.next = .ok (none, jt2) ∧ jt2.keys = [C]) := by
  refine ⟨?_, ?_, ?_, ?_⟩
  · intro m A B C buffer la lb lc hA hB hC hab hbc hac hlen
    obtain ⟨h1, h2, h3, h4⟩ := hash_iter3 hA hB hC hab hbc hac hlen
    exact ⟨_, _, _, h1, h2, h3, h4, rfl⟩
  · intro m A B C buffer la lb hA hB hab hlen
    obtain ⟨h1, h2, h3⟩ := hash_iter2 (C := C) hA hB hab hlen
    exact ⟨_, _, h1, h2, h3, rfl⟩
  · intro m A B C buffer la lb lc hA hB hC hab hbc hac hlen
    obtain ⟨h1, h2, h3, h4⟩ := hash_iter3 hA hB hC hab hbc hac hlen
    refine ⟨toBTreeIter ⟨⟨1, m, buffer.set 0 la⟩, [B, C]⟩,
      toBTreeIter ⟨⟨2, m, (buffer.set 0 la).set 1 lb⟩, [C]⟩,
      toBTreeIter ⟨⟨3, m, ((buffer.set 0 la).set 1 lb).set 2 lc⟩, []⟩,
      ?_, ?_, ?_, ?_, rfl⟩
    · show (toBTreeIter (HashMapMultiMut.iter_multi_mut m [A, B, C] buffer)).next = _
      rw [next_backend, h1]; rfl
    · rw [next_backend, h2]; rfl
    · rw [next_backend, h3]; rfl
    · rw [next_backend, h4]; rfl
  · intro m A B C buffer la lb hA hB hab hlen
    obtain ⟨h1, h2, h3⟩ := hash_iter2 (C := C) hA hB hab hlen
    refine ⟨toBTreeIter ⟨⟨1, m, buffer.set 0 la⟩, [B, C]⟩,
      toBTreeIter ⟨⟨2, m, (buffer.set 0 la).set 1 lb⟩, [C]⟩, ?_, ?_, ?_, rfl⟩
    · show (toBTreeIter (HashMapMultiMut.iter_multi_mut m [A, B, C] buffer)).next = _
      rw [next_backend, h1]; rfl
    · rw [next_backend, h2]; rfl
    · rw [next_backend, h3]; rfl

/-- Witness for C7: the concrete container with keys [x, y, z], capacity
3 (yields 0, 1, 2 then the empty outcome) and capacity 2 (yields 0, 1
then the empty outcome with z unconsumed). -/
theorem iter_yield_order_exhaustion_witness :
    (∃ it1 it2 it3,
      (HashMapMultiMut.iter_multi_mut exMap ["x", "y", "z"] [9, 9, 9]).next =
          .ok (some 0, it1) ∧
        it1.next = .ok (some 1, it2) ∧
        it2.next = .ok (some 2, it3) ∧
        it3.next = .ok (none, it3) ∧ it3.keys = []) ∧
    (∃ it1 it2,
      (HashMapMultiMut.iter_multi_mut exMap ["x", "y", "z"] [9, 9]).next =
          .ok (some 0, it1) ∧
        it1.next = .ok (some 1, it2) ∧
        it2.next = .ok (none, it2) ∧ it2.keys = ["z"]) :=
  ⟨iter_yield_order_exhaustion.1 exMap "x" "y" "z" [9, 9, 9] 0 1 2 rfl rfl rfl
     (by decide) (by decide) (by decide) (by decide),
   iter_yield_order_exhaustion.2.1 exMap "x" "y" "z" [9, 9] 0 1 rfl rfl
     (by decide) (by decide)⟩

/-- C8 counterexample: the sequential accessor does NOT abort fatally on
a full ledger.  On the concrete container with capacity 2 and keys
[x, y, z], the first two pulls succeed and the third pull — attempted
while the ledger is already full and the present key z is still pending —
returns the empty outcome `.ok none` (indistinguishable from normal
exhaustion) instead of aborting; so one entry point does report a full
ledger as a recoverable/empty result, refuting the claim as stated. -/
theorem capacity_never_soft_cex :
    (HashMapMultiMut.iter_multi_mut exMap ["x", "y", "z"] [7, 7]).next =
        .ok (some 0, ⟨⟨1, exMap, [0, 7]⟩, ["y", "z"]⟩) ∧
      HashMapMultiMutIter.next (⟨⟨1, exMap, [0, 7]⟩, ["y", "z"]⟩ :
          HashMapMultiMutIter String Nat) =
        .ok (some 1, ⟨⟨2, exMap, [0, 1]⟩, ["z"]⟩) ∧
      HashMapMultiMutIter.next (⟨⟨2, exMap, [0, 1]⟩, ["z"]⟩ :
          HashMapMultiMutIter String Nat) =
        .ok (none, ⟨⟨2, exMap, [0, 1]⟩, ["z"]⟩) :=
  ⟨rfl, rfl, rfl⟩

/-- C8 amended: encountering a full ledger always aborts fatally in the
bounded multi-accessor claims — soft (`get_mut`) and hard (`mut_ref`),
both backends, even when the claimed key is absent — but the sequential
accessor instead checks capacity first and reports the empty (exhausted)
outcome without attempting a claim, so within the accessor the claim path
never observes a full ledger. -/
theorem capacity_abort_amended :
    (∀ (w : HashMapMutWrapper κ ν) (k : κ), w.used = w.buffer.length →
       w.get_mut k = .error "Buffer space is depleted!")
    ∧ (∀ (w : HashMapMutWrapper κ ν) (k : κ), w.used = w.buffer.length →
        w.mut_ref k = .error "Buffer space is depleted!")
    ∧ (∀ (w : BTreeMapMutWrapper κ ν) (k : κ), w.used = w.buffer.length →
        w.get_mut k = .error "Buffer space is depleted!")
    ∧ (∀ (w : BTreeMapMutWrapper κ ν) (k : κ), w.used = w.buffer.length →
        w.mut_ref k = .error "Buffer space is depleted!")
    ∧ (∀ (it : HashMapMultiMutIter κ ν),
        it.mut_wrapper.used = it.mut_wrapper.buffer.length →
        it.next = .ok (none, it))
    ∧ (∀ (it : BTreeMapMultiMutIter κ ν),
        it.mut_wrapper.used = it.mut_wrapper.buffer.length →
        it.next = .ok (none, it)) := by
  refine ⟨?_, ?_, ?_, ?_, ?_, ?_⟩
  · intro w k h; exact get_mut_full k h
  · intro w k h; exact mut_ref_full k h
  · intro w k h; exact bget_mut_full k h
  · intro w k h; exact bmut_ref_full k h
  · intro it h; exact next_full h
  · intro it h; exact bnext_full h

/-- Witness for the amended C8: with a full concrete ledger, both claim
paths abort on the absent key w and the present key z, and both sequential
accessors report the empty outcome. -/
theorem capacity_abort_amended_witness :
    HashMapMutWrapper.get_mut (⟨2, exMap, [0, 1]⟩ :
        HashMapMutWrapper String Nat) "z" =
      .error "Buffer space is depleted!" ∧
    HashMapMutWrapper.mut_ref (⟨2, exMap, [0, 1]⟩ :
        HashMapMutWrapper String Nat) "w" =
      .error "Buffer space is depleted!" ∧
    BTreeMapMutWrapper.get_mut (⟨2, exMap, [0, 1]⟩ :
        BTreeMapMutWrapper String Nat) "z" =
      .error "Buffer space is depleted!" ∧
    BTreeMapMutWrapper.mut_ref (⟨2, exMap, [0, 1]⟩ :
        BTreeMapMutWrapper String Nat) "w" =
      .error "Buffer space is depleted!" ∧
    HashMapMultiMutIter.next (⟨⟨2, exMap, [0, 1]⟩, ["z"]⟩ :
        HashMapMultiMutIter String Nat) =
      .ok (none, ⟨⟨2, exMap, [0, 1]⟩, ["z"]⟩) ∧
    BTreeMapMultiMutIter.next (⟨⟨2, exMap, [0, 1]⟩, ["z"]⟩ :
        BTreeMapMultiMutIter String Nat) =
      .ok (none, ⟨⟨2, exMap, [0, 1]⟩, ["z"]⟩) :=
  ⟨capacity_abort_amended.1 ⟨2, exMap, [0, 1]⟩ "z" rfl,
   capacity_abort_amended.2.1 ⟨2, exMap, [0, 1]⟩ "w" rfl,
   capacity_abort_amended.2.2.1 ⟨2, exMap, [0, 1]⟩ "z" rfl,
   capacity_abort_amended.2.2.2.1 ⟨2, exMap, [0, 1]⟩ "w" rfl,
   capacity_abort_amended.2.2.2.2.1 ⟨⟨2, exMap, [0, 1]⟩, ["z"]⟩ rfl,
   capacity_abort_amended.2.2.2.2.2 ⟨⟨2, exMap, [0, 1]⟩, ["z"]⟩ rfl⟩

/-- C9: Backend equivalence: on the same container content and the same
arguments, every operation of the BTreeMap backend returns the same
result — and aborts under the same conditions — as the corresponding
HashMap-backend operation, up to the field-for-field identification of
the two wrapper and accessor structures. -/
theorem backend_equivalence :
    (∀ (m : MapModel κ ν) (k1 k2 : κ),
       BTreeMapMultiMut.get_pair_mut m k1 k2 =
         HashMapMultiMut.get_pair_mut m k1 k2)
    ∧ (∀ (m : MapModel κ ν) (k1 k2 : κ),
        BTreeMapMultiMut.pair_mut m k1 k2 = HashMapMultiMut.pair_mut m k1 k2)
    ∧ (∀ (m : MapModel κ ν) (k1 k2 k3 : κ),
        BTreeMapMultiMut.get_triple_mut m k1 k2 k3 =
          HashMapMultiMut.get_triple_mut m k1 k2 k3)
    ∧ (∀ (m : MapModel κ ν) (k1 k2 k3 : κ),
        BTreeMapMultiMut.triple_mut m k1 k2 k3 =
          HashMapMultiMut.triple_mut m k1 k2 k3)
    ∧ (∀ (m : MapModel κ ν) (buffer : List Nat),
        toHashW (BTreeMapMultiMut.multi_mut m buffer) =
          HashMapMultiMut.multi_mut m buffer)
    ∧ (∀ (w : BTreeMapMutWrapper κ ν) (k : κ),
        w.get_mut k =
          Except.map (fun p => (p.1, toBTreeW p.2)) ((toHashW w).get_mut k))
    ∧ (∀ (w : BTreeMapMutWrapper κ ν) (k : κ),
        w.mut_ref k =
          Except.map (fun p => (p.1, toBTreeW p.2)) ((toHashW w).mut_ref k))
    ∧ (∀ (m : MapModel κ ν) (keys : List κ) (buffer : List Nat),
        toHashIter (BTreeMapMultiMut.iter_multi_mut m keys buffer) =
          HashMapMultiMut.iter_multi_mut m keys buffer)
    ∧ (∀ (it : BTreeMapMultiMutIter κ ν),
        it.next =
          Except.map (fun p => (p.1, toBTreeIter p.2)) ((toHashIter it).next)) := by
  refine ⟨?_, ?_, ?_, ?_, ?_, ?_, ?_, ?_, ?_⟩
  · intro m k1 k2; rfl
  · intro m k1 k2; rfl
  · intro m k1 k2 k3; rfl
  · intro m k1 k2 k3; rfl
  · intro m buffer; rfl
  · intro w k; exact get_mut_backend w k
  · intro w k; exact mut_ref_backend w k
  · intro m keys buffer; rfl
  · intro it
    have h : it = toBTreeIter (toHashIter it) := rfl
    calc it.next = (toBTreeIter (toHashIter it)).next := by rw [← h]
      _ = Except.map (fun p => (p.1, toBTreeIter p.2)) ((toHashIter it).next) :=
        next_backend (toHashIter it)

/-- C10: A failed soft claim consumes nothing: when capacity remains and
the key is absent, the per-key claim returns the empty result together
with the wrapper state completely unchanged (same used count, same
recorded locations), in both backends — so subsequent claims behave as if
the failed claim had never been made. -/
theorem failed_soft_claim_noop :
    (∀ (w : HashMapMutWrapper κ ν) (k : κ), w.used ≠ w.buffer.length →
       w.map.keyLoc k = none → w.get_mut k = .ok (none, w))
    ∧ (∀ (w : BTreeMapMutWrapper κ ν) (k : κ), w.used ≠ w.buffer.length →
        w.map.keyLoc k = none → w.get_mut k = .ok (none, w)) := by
  constructor
  · intro w k hne hk; exact get_mut_absent hne hk
  · intro w k hne hk; exact bget_mut_absent hne hk

/-- Witness for C10: a mid-session wrapper (one location already claimed)
claiming the absent key w gets the empty result with the state — used
count and ledger — unchanged, in both backends. -/
theorem failed_soft_claim_noop_witness :
    HashMapMutWrapper.get_mut (⟨1, exMap, [0, 9]⟩ :
        HashMapMutWrapper String Nat) "w" = .ok (none, ⟨1, exMap, [0, 9]⟩) ∧
    BTreeMapMutWrapper.get_mut (⟨1, exMap, [0, 9]⟩ :
        BTreeMapMutWrapper String Nat) "w" = .ok (none, ⟨1, exMap, [0, 9]⟩) :=
  ⟨failed_soft_claim_noop.1 ⟨1, exMap, [0, 9]⟩ "w" (by decide) rfl,
   failed_soft_claim_noop.2 ⟨1, exMap, [0, 9]⟩ "w" (by decide) rfl⟩

end MultiMut
